import Mathlib

/-!
Verification of the realtime whiteboard synchronization core:
the shared message protocol (`shared/types/messages.ts`), the relay server
(`chat_server/src/server.ts`), and the client sync adapter
(`frontend/src/contexts/WhiteboardContext.tsx`,
`frontend/src/hooks/useWebSocket.ts`).

The relay handles inbound frames as untyped JSON (`JSON.parse` of the raw
bytes), so the server-side embedding works over a JSON value type and models
JavaScript property access faithfully, including `undefined` results and the
TypeError thrown when reading a property of `null` or `undefined`.
Numeric JSON values are modelled as integers: no claim under verification
depends on fractional or floating-point arithmetic.
-/

namespace RealtimeWhiteboard

/-- A JSON value, as produced by `JSON.parse`. Objects are field lists
(`JSON.parse` never yields duplicate keys: later duplicates overwrite). -/
inductive JVal where
  | null : JVal
  | bool (b : Bool) : JVal
  | num (n : Int) : JVal
  | str (s : String) : JVal
  | arr (elems : List JVal) : JVal
  | obj (fields : List (String × JVal)) : JVal

/-- JavaScript strict equality `t === tag` between a possibly-`undefined`
value and a string literal: true exactly when the value is that string. -/
def isTypeTag (t : Option JVal) (tag : String) : Bool :=
  match t with
  | some (.str s) => s = tag
  | _ => false

/-- First field with the given key, if any. -/
def lookupField : List (String × JVal) → String → Option JVal
  | [], _ => none
  | (k, v) :: rest, key => if k = key then some v else lookupField rest key

/-- JavaScript property access `v.k` on a `JSON.parse` result: reading a
property of `null` throws a TypeError (`Except.error`); reading a missing
property, or a property of a non-object primitive, yields `undefined`
(modelled as `none`). -/
def getProp : JVal → String → Except Unit (Option JVal)
  | .null, _ => .error ()
  | .obj fs, k => .ok (lookupField fs k)
  | _, _ => .ok none

/-- JavaScript property access on a possibly-`undefined` base value:
`undefined.k` throws a TypeError. -/
def getPropU : Option JVal → String → Except Unit (Option JVal)
  | none, _ => .error ()
  | some v, k => getProp v k

/-! Relay server, `chat_server/src/server.ts`. -/

/-- The `ws` library readyState constant `WebSocket.OPEN`. -/
def OPEN : Nat := 1

/-- One entry of `wss.clients`: a connected session. `id` distinguishes
sessions; `readyState` is the transport state the broadcast loop checks. -/
structure Client where
  id : Nat
  readyState : Nat
deriving DecidableEq

/-- An inbound wire frame, as observed through `JSON.parse(data.toString())`:
the builtin either yields a JSON value or throws. The raw text of a frame
that fails to parse is kept, so distinct malformed frames stay distinct. -/
inductive Data where
  | ok (v : JVal) : Data
  | malformed (raw : String) : Data

/-- The relay's module-level mutable state: `let strokes = []` and
`let chatHistory = []`. Both arrays receive whatever JavaScript value the
handler pushes, so entries are possibly-`undefined` JSON values. -/
structure ServerState where
  strokes : List (Option JVal)
  chatHistory : List (Option JVal)

/-- Relay state at process start: both arrays empty. -/
def initialServerState : ServerState := ⟨[], []⟩

/-- The state-mutating part of the `ws.on('message')` handler, applied to a
successfully parsed JSON value `v` (the `msg` variable). Reads `msg.type`;
when it is the string `stroke:add`, pushes `msg.payload.stroke` onto
`strokes`; when it is `chat:message`, pushes `msg.payload` onto
`chatHistory`. Any TypeError thrown by a property access (base `null` or
`undefined`) aborts the handler before the corresponding push, which
`Except.error` models. -/
def handleParsed (st : ServerState) (v : JVal) : Except Unit ServerState := do
  let t ← getProp v "type"
  let st1 ←
    if isTypeTag t "stroke:add" then do
      let p ← getProp v "payload"
      let s ← getPropU p "stroke"
      pure { st with strokes := st.strokes ++ [s] }
    else pure st
  if isTypeTag t "chat:message" then do
    let p ← getProp v "payload"
    pure { st1 with chatHistory := st1.chatHistory ++ [p] }
  else pure st1

/-- The broadcast loop: `wss.clients.forEach(client => { if
(client.readyState === WebSocket.OPEN) client.send(data); })`. Yields the
performed sends in loop order; each send forwards the received frame `data`
itself, not a reserialization. -/
def broadcast (clients : List Client) (data : Data) : List (Client × Data) :=
  (clients.filter (fun c => c.readyState = OPEN)).map (fun c => (c, data))

/-- Result of one `ws.on('message')` activation: the relay state afterwards,
the sends performed, and whether an uncaught TypeError escaped the handler
(the `try` only wraps `JSON.parse`). -/
structure HandlerOutcome where
  state : ServerState
  sends : List (Client × Data)
  crashed : Bool

/-- The whole `ws.on('message')` handler. Parse failure returns early:
no mutation, no sends. A TypeError during property access escapes before
any push for that message and before the broadcast loop. Otherwise the
(possibly updated) state stands and the frame is rebroadcast verbatim to
every client whose readyState is OPEN. -/
def handleMessage (clients : List Client) (st : ServerState) (data : Data) :
    HandlerOutcome :=
  match data with
  | .malformed _ => ⟨st, [], false⟩
  | .ok v =>
    match handleParsed st v with
    | .error _ => ⟨st, [], true⟩
    | .ok st2 => ⟨st2, broadcast clients data, false⟩

/-- Relay state after processing a sequence of inbound frames in arrival
order (the event loop serializes handler activations). -/
def processAll (clients : List Client) (st : ServerState)
    (frames : List Data) : ServerState :=
  frames.foldl (fun s d => (handleMessage clients s d).state) st

/-- A message synthesized by the server for a newly connected client. -/
inductive ServerToClient where
  | boardSync (strokes : List (Option JVal)) (users : List JVal)
  | chatSync (chatHistory : List (Option JVal))

/-- The `wss.on('connection')` handler body before the message listener is
armed: build `syncMsg` (`board:sync` with the current strokes and an empty
users array) and send it, then build `chatSyncMsg` (`chat:sync` with the
current chat history) and send it. -/
def onConnection (st : ServerState) : List ServerToClient :=
  [.boardSync st.strokes [], .chatSync st.chatHistory]

/-! Typed message protocol, `shared/types/messages.ts`. -/

/-- A point of a stroke path. -/
structure Point where
  x : Int
  y : Int
deriving DecidableEq

/-- An rgba color. -/
structure Color where
  r : Int
  g : Int
  b : Int
  a : Int
deriving DecidableEq

/-- The `Stroke` supporting type. -/
structure Stroke where
  id : String
  points : List Point
  color : Color
  thickness : Int
  userId : String
deriving DecidableEq

/-- The `User` supporting type. -/
structure User where
  userId : String
  username : String
deriving DecidableEq

/-- The payload of a `ChatMessage` (also the element type of ChatHistory). -/
structure ChatPayload where
  userId : String
  username : String
  message : String
deriving DecidableEq

/-- The closed tagged union `Message`: the eight recognized message kinds. -/
inductive Message where
  | strokeAdd (stroke : Stroke)
  | strokeRemove (strokeId : String)
  | strokeMove (strokeId : String) (dx dy : Int)
  | boardClear (userId : String)
  | chatMessage (payload : ChatPayload)
  | userJoin (userId : String) (username : String)
  | boardSync (strokes : List Stroke) (users : List User)
  | chatSync (chatHistory : List ChatPayload)
deriving DecidableEq

/-- The `type` tag carried on the wire by each message kind. -/
def Message.typeTag : Message → String
  | .strokeAdd _ => "stroke:add"
  | .strokeRemove _ => "stroke:remove"
  | .strokeMove _ _ _ => "stroke:move"
  | .boardClear _ => "board:clear"
  | .chatMessage _ => "chat:message"
  | .userJoin _ _ => "user:join"
  | .boardSync _ _ => "board:sync"
  | .chatSync _ => "chat:sync"

/-- The eight recognized `type` tags of the protocol table. -/
def recognizedTags : List String :=
  ["stroke:add", "stroke:remove", "stroke:move", "board:clear",
   "chat:message", "user:join", "board:sync", "chat:sync"]

/-- JSON.stringify of a `Point`. -/
def Point.toJson (p : Point) : JVal :=
  .obj [("x", .num p.x), ("y", .num p.y)]

/-- JSON.stringify of a `Color`. -/
def Color.toJson (c : Color) : JVal :=
  .obj [("r", .num c.r), ("g", .num c.g), ("b", .num c.b), ("a", .num c.a)]

/-- JSON.stringify of a `Stroke`. -/
def Stroke.toJson (s : Stroke) : JVal :=
  .obj [("id", .str s.id), ("points", .arr (s.points.map Point.toJson)),
        ("color", s.color.toJson), ("thickness", .num s.thickness),
        ("userId", .str s.userId)]

/-- JSON.stringify of a `User`. -/
def User.toJson (u : User) : JVal :=
  .obj [("userId", .str u.userId), ("username", .str u.username)]

/-- JSON.stringify of a `ChatMessage` payload. -/
def ChatPayload.toJson (p : ChatPayload) : JVal :=
  .obj [("userId", .str p.userId), ("username", .str p.username),
        ("message", .str p.message)]

/-- The wire body of each typed message kind: the JSON value that
`JSON.parse` recovers from `JSON.stringify` of the typed value. -/
def Message.toJson : Message → JVal
  | .strokeAdd s =>
      .obj [("type", .str "stroke:add"),
            ("payload", .obj [("stroke", s.toJson)])]
  | .strokeRemove sid =>
      .obj [("type", .str "stroke:remove"),
            ("payload", .obj [("strokeId", .str sid)])]
  | .strokeMove sid dx dy =>
      .obj [("type", .str "stroke:move"),
            ("payload", .obj [("strokeId", .str sid), ("dx", .num dx),
                              ("dy", .num dy)])]
  | .boardClear uid =>
      .obj [("type", .str "board:clear"),
            ("payload", .obj [("userId", .str uid)])]
  | .chatMessage p =>
      .obj [("type", .str "chat:message"), ("payload", p.toJson)]
  | .userJoin uid uname =>
      .obj [("type", .str "user:join"),
            ("payload", .obj [("userId", .str uid),
                              ("username", .str uname)])]
  | .boardSync ss us =>
      .obj [("type", .str "board:sync"),
            ("payload", .obj [("strokes", .arr (ss.map Stroke.toJson)),
                              ("users", .arr (us.map User.toJson))])]
  | .chatSync ch =>
      .obj [("type", .str "chat:sync"),
            ("payload", .obj [("chatHistory",
                               .arr (ch.map ChatPayload.toJson))])]

/-- The wire frame carrying a typed message. -/
def Message.frame (m : Message) : Data := .ok m.toJson

/-- The strokes carried by the `stroke:add` messages of a sequence, in
order. -/
def strokeAdds : List Message → List Stroke
  | [] => []
  | .strokeAdd s :: rest => s :: strokeAdds rest
  | _ :: rest => strokeAdds rest

/-- The payloads carried by the `chat:message` messages of a sequence, in
order. -/
def chatAppends : List Message → List ChatPayload
  | [] => []
  | .chatMessage p :: rest => p :: chatAppends rest
  | _ :: rest => chatAppends rest

/-! Client sync adapter, `frontend/src/contexts/WhiteboardContext.tsx` and
`frontend/src/hooks/useWebSocket.ts`. -/

/-- The drawing-state part of `WhiteboardState` that the sync adapter and
the reducer actions below touch. Tool, UI, and WASM fields are omitted:
no action modelled here reads or writes them. -/
structure WhiteboardState where
  currentStroke : Option Stroke
  strokes : List Stroke
  selectedStrokes : List Nat
  previewShape : Option Stroke
  strokeUpdateTrigger : Nat
deriving DecidableEq

/-- The `initialState` of the context (drawing-state part). -/
def initialWhiteboardState : WhiteboardState :=
  ⟨none, [], [], none, 0⟩

/-- The reducer actions that touch the drawing state. -/
inductive WhiteboardAction where
  | SET_CURRENT_STROKE (payload : Option Stroke)
  | SET_STROKES (payload : List Stroke)
  | SET_SELECTED_STROKES (payload : List Nat)
  | SET_PREVIEW_SHAPE (payload : Option Stroke)
  | TRIGGER_STROKE_UPDATE
  | CLEAR_CANVAS

/-- `whiteboardReducer`, restricted to the drawing-state actions. -/
def whiteboardReducer (state : WhiteboardState) (action : WhiteboardAction) :
    WhiteboardState :=
  match action with
  | .SET_CURRENT_STROKE p => { state with currentStroke := p }
  | .SET_STROKES p => { state with strokes := p }
  | .SET_SELECTED_STROKES p => { state with selectedStrokes := p }
  | .SET_PREVIEW_SHAPE p => { state with previewShape := p }
  | .TRIGGER_STROKE_UPDATE =>
      { state with strokeUpdateTrigger := state.strokeUpdateTrigger + 1 }
  | .CLEAR_CANVAS =>
      { state with strokes := [], selectedStrokes := [],
                   currentStroke := none, previewShape := none }

/-- `addStroke`, the adapter's stroke-application operation exported for
WebSocket sync: dispatches SET_STROKES with the current strokes plus the
new one appended. -/
def addStroke (state : WhiteboardState) (stroke : Stroke) : WhiteboardState :=
  whiteboardReducer state (.SET_STROKES (state.strokes ++ [stroke]))

/-- `setAllStrokes`, the adapter's snapshot application exported for
WebSocket sync: dispatches SET_STROKES with the snapshot array. -/
def setAllStrokes (state : WhiteboardState) (strokes : List Stroke) :
    WhiteboardState :=
  whiteboardReducer state (.SET_STROKES strokes)

/-- The client socket handle `ws.current` as `send` observes it:
either absent (`null`) or a socket in some readyState. -/
structure Socket where
  readyState : Nat
deriving DecidableEq

/-- The `send` callback of `useWebSocket`: transmits
`JSON.stringify(msg)` only when `ws.current` exists and its readyState is
OPEN; otherwise nothing happens. The result is the list of frames put on
the wire (the hook keeps no queue and throws no error). -/
def send (ws : Option Socket) (msg : Message) : List Data :=
  match ws with
  | some s => if s.readyState = OPEN then [.ok msg.toJson] else []
  | none => []

/-- The net state effect of one handler activation on the wire frame of a
typed protocol message (proved below to be what `handleMessage` does). -/
def stepState (st : ServerState) (m : Message) : ServerState :=
  match m with
  | .strokeAdd s => { st with strokes := st.strokes ++ [some s.toJson] }
  | .chatMessage p =>
      { st with chatHistory := st.chatHistory ++ [some p.toJson] }
  | _ => st

/-! Concrete fixtures used by witnesses and counterexamples. -/

/-- A connected session with an open transport. -/
def clientA : Client := ⟨0, OPEN⟩

/-- A concrete stroke with id `a`. -/
def strokeA : Stroke := ⟨"a", [⟨0, 0⟩], ⟨0, 0, 0, 1⟩, 2, "u1"⟩

/-- A parsed frame whose type tag is none of the eight recognized kinds. -/
def bogusBody : JVal := .obj [("type", .str "bogus"), ("payload", .obj [])]

/-! Helper lemmas. -/

theorem getProp_type_toJson (m : Message) :
    getProp m.toJson "type" = .ok (some (.str m.typeTag)) := by
  cases m <;> rfl

theorem handleParsed_toJson (st : ServerState) (m : Message) :
    handleParsed st m.toJson = .ok (stepState st m) := by
  cases m <;> rfl

theorem handleMessage_frame (clients : List Client) (st : ServerState)
    (m : Message) :
    handleMessage clients st m.frame
      = ⟨stepState st m, broadcast clients m.frame, false⟩ := by
  simp [handleMessage, Message.frame, handleParsed_toJson]

theorem exceptOk_bind {α β : Type} (x : α) (f : α → Except Unit β) :
    (Except.ok x : Except Unit α) >>= f = f x := rfl

theorem exceptError_bind {α β : Type} (e : Unit) (f : α → Except Unit β) :
    (Except.error e : Except Unit α) >>= f = Except.error e := rfl

theorem exceptOk_map {α β : Type} (f : α → β) (x : α) :
    f <$> (Except.ok x : Except Unit α) = Except.ok (f x) := rfl

theorem exceptPure {α : Type} (x : α) :
    (pure x : Except Unit α) = Except.ok x := rfl

theorem processAll_frames (clients : List Client) (st : ServerState)
    (msgs : List Message) :
    processAll clients st (msgs.map Message.frame) = msgs.foldl stepState st := by
  induction msgs generalizing st with
  | nil => rfl
  | cons m rest ih =>
      simp [processAll, List.foldl_cons, handleMessage_frame] at ih ⊢
      exact ih (stepState st m)

theorem foldl_stepState_strokes (msgs : List Message) (st : ServerState) :
    (msgs.foldl stepState st).strokes
      = st.strokes ++ (strokeAdds msgs).map (fun s => some s.toJson) := by
  induction msgs generalizing st with
  | nil => simp [strokeAdds]
  | cons m rest ih =>
      cases m <;> simp [stepState, strokeAdds, ih, List.append_assoc]

theorem foldl_stepState_chat (msgs : List Message) (st : ServerState) :
    (msgs.foldl stepState st).chatHistory
      = st.chatHistory ++ (chatAppends msgs).map (fun p => some p.toJson) := by
  induction msgs generalizing st with
  | nil => simp [chatAppends]
  | cons m rest ih =>
      cases m <;> simp [stepState, chatAppends, ih, List.append_assoc]

theorem isTypeTag_str (s tag : String) :
    isTypeTag (some (.str s)) tag = decide (s = tag) := rfl

theorem handleParsed_other (st : ServerState) (v : JVal) (t : String)
    (h : getProp v "type" = .ok (some (.str t)))
    (h1 : t ≠ "stroke:add") (h2 : t ≠ "chat:message") :
    handleParsed st v = .ok st := by
  simp [handleParsed, h, isTypeTag_str, h1, h2, exceptOk_bind, exceptPure]

theorem handleParsed_strokes_eq (st : ServerState) (v : JVal) (t : String)
    (h : getProp v "type" = .ok (some (.str t))) (h1 : t ≠ "stroke:add") :
    ∀ st2, handleParsed st v = .ok st2 → st2.strokes = st.strokes := by
  intro st2 h2
  simp [handleParsed, h, isTypeTag_str, h1, exceptOk_bind, exceptPure] at h2
  by_cases hc : t = "chat:message"
  · simp [hc] at h2
    cases hp : getProp v "payload" with
    | error e => simp [hp, exceptError_bind] at h2
    | ok p =>
        simp [hp, exceptOk_bind, exceptOk_map] at h2
        cases h2
        rfl
  · simp [hc] at h2
    cases h2
    rfl

theorem handleParsed_chat_eq (st : ServerState) (v : JVal) (t : String)
    (h : getProp v "type" = .ok (some (.str t))) (h1 : t ≠ "chat:message") :
    ∀ st2, handleParsed st v = .ok st2 → st2.chatHistory = st.chatHistory := by
  intro st2 h2
  simp [handleParsed, h, isTypeTag_str, h1, exceptOk_bind, exceptPure] at h2
  by_cases ha : t = "stroke:add"
  · simp [ha] at h2
    cases hp : getProp v "payload" with
    | error e => simp [hp, exceptError_bind] at h2
    | ok p =>
        cases hs : getPropU p "stroke" with
        | error e => simp [hp, hs, exceptError_bind, exceptOk_bind] at h2
        | ok s =>
            simp [hp, hs, exceptOk_bind, exceptPure] at h2
            cases h2
            rfl
  · simp [ha] at h2
    cases h2
    rfl

theorem handleParsed_strokes_extend (st : ServerState) (v : JVal) :
    ∀ st2, handleParsed st v = .ok st2 →
      ∃ tail, st2.strokes = st.strokes ++ tail := by
  intro st2 h2
  cases ht : getProp v "type" with
  | error e => simp [handleParsed, ht, exceptError_bind] at h2
  | ok t =>
      simp [handleParsed, ht, exceptOk_bind] at h2
      by_cases ha : isTypeTag t "stroke:add"
      · simp [ha] at h2
        cases hp : getProp v "payload" with
        | error e => simp [hp, exceptError_bind] at h2
        | ok p =>
            cases hs : getPropU p "stroke" with
            | error e => simp [hp, hs, exceptError_bind, exceptOk_bind] at h2
            | ok s =>
                simp [hp, hs, exceptOk_bind, exceptPure] at h2
                by_cases hc : isTypeTag t "chat:message"
                · simp [hc] at h2
                  cases h2
                  exact ⟨[s], rfl⟩
                · simp [hc] at h2
                  cases h2
                  exact ⟨[s], rfl⟩
      · simp [ha] at h2
        by_cases hc : isTypeTag t "chat:message"
        · simp [hc] at h2
          cases hq : getProp v "payload" with
          | error e => simp [hq, exceptError_bind] at h2
          | ok q =>
              simp [hq, exceptOk_bind, exceptOk_map] at h2
              cases h2
              exact ⟨[], by simp⟩
        · simp [hc] at h2
          cases h2
          exact ⟨[], by simp⟩

theorem filter_map_pair {α β : Type} (l : List α) (f : α → β) (p : β → Bool) :
    (l.map f).filter p = (l.filter (fun a => p (f a))).map f := by
  induction l with
  | nil => rfl
  | cons x xs ih => by_cases h : p (f x) <;> simp [h, ih]

theorem filter_eq_singleton {α : Type} [DecidableEq α] (l : List α) (a : α)
    (hnd : l.Nodup) (hmem : a ∈ l) :
    (l.filter (fun c => c = a)).length = 1 := by
  induction l with
  | nil => cases hmem
  | cons x xs ih =>
      rcases List.nodup_cons.mp hnd with ⟨hx, hxs⟩
      rcases List.mem_cons.mp hmem with h | h
      · subst h
        have hnone : xs.filter (fun c => c = a) = [] := by
          refine List.filter_eq_nil_iff.mpr ?_
          intro b hb hba
          exact hx ((of_decide_eq_true hba) ▸ hb)
        simp [List.filter_cons, hnone]
      · have hne : x ≠ a := fun hxa => hx (hxa ▸ h)
        simp [List.filter_cons, hne, ih hxs h]

theorem filter_eq_none {α : Type} [DecidableEq α] (l : List α) (a : α)
    (h : a ∉ l) : (l.filter (fun c => c = a)).length = 0 := by
  have : l.filter (fun c => c = a) = [] := by
    refine List.filter_eq_nil_iff.mpr ?_
    intro b hb hba
    exact h ((of_decide_eq_true hba) ▸ hb)
  simp [this]

/-! Claim theorems. -/

/-- C1: for every inbound message that parses and whose type is
stroke:remove, stroke:move, board:clear, or user:join, the handler leaves
BoardState and ChatHistory unchanged and only rebroadcasts; only
stroke:add can change the strokes and only chat:message can change the
chat history. -/
theorem nonmutating_types_rebroadcast_only (clients : List Client)
    (st : ServerState) (v : JVal) (t : String)
    (htype : getProp v "type" = .ok (some (.str t))) :
    ((t = "stroke:remove" ∨ t = "stroke:move" ∨ t = "board:clear" ∨
        t = "user:join") →
      handleMessage clients st (.ok v)
        = ⟨st, broadcast clients (.ok v), false⟩)
    ∧ ((handleMessage clients st (.ok v)).state.strokes ≠ st.strokes →
        t = "stroke:add")
    ∧ ((handleMessage clients st (.ok v)).state.chatHistory
          ≠ st.chatHistory → t = "chat:message") := by
  refine ⟨?_, ?_, ?_⟩
  · intro hrec
    have h1 : t ≠ "stroke:add" := by
      rcases hrec with h | h | h | h <;> subst h <;> decide
    have h2 : t ≠ "chat:message" := by
      rcases hrec with h | h | h | h <;> subst h <;> decide
    simp [handleMessage, handleParsed_other st v t htype h1 h2]
  · intro hne
    by_contra h1
    apply hne
    cases hh : handleParsed st v with
    | error e => simp [handleMessage, hh]
    | ok st2 =>
        simp [handleMessage, hh]
        exact handleParsed_strokes_eq st v t htype h1 st2 hh
  · intro hne
    by_contra h1
    apply hne
    cases hh : handleParsed st v with
    | error e => simp [handleMessage, hh]
    | ok st2 =>
        simp [handleMessage, hh]
        exact handleParsed_chat_eq st v t htype h1 st2 hh

/-- C1 witness: a concrete stroke:remove frame against the empty relay
state is rebroadcast to the one open session and mutates nothing. -/
theorem nonmutating_types_rebroadcast_only_witness :
    handleMessage [clientA] initialServerState
        (.ok (Message.strokeRemove "a").toJson)
      = ⟨initialServerState,
         [(clientA, .ok (Message.strokeRemove "a").toJson)], false⟩ :=
  (nonmutating_types_rebroadcast_only [clientA] initialServerState
      (Message.strokeRemove "a").toJson "stroke:remove" rfl).1 (Or.inl rfl)

/-- C2 counterexample: a parsed frame with the unrecognized type tag
`bogus` IS rebroadcast to an open session (the handler has no type
whitelist), contradicting the claim that it is never rebroadcast. -/
theorem unrecognized_type_rebroadcast_cex :
    (handleMessage [clientA] initialServerState (.ok bogusBody)).sends
        = [(clientA, .ok bogusBody)]
    ∧ (handleMessage [clientA] initialServerState (.ok bogusBody)).sends
        ≠ []
    ∧ (handleMessage [clientA] initialServerState (.ok bogusBody)).state.strokes
        = []
    ∧ (handleMessage [clientA] initialServerState
        (.ok bogusBody)).state.chatHistory = [] :=
  ⟨rfl, List.cons_ne_nil _ _, rfl, rfl⟩

/-- C2 amended: for every inbound frame that parses but whose type tag is
not one of the eight recognized kinds, the relay mutates no state and
sends no error response, but the frame IS rebroadcast verbatim to every
open session, exactly like a recognized message. -/
theorem unrecognized_type_no_mutation_still_rebroadcast
    (clients : List Client) (st : ServerState) (v : JVal) (t : Option JVal)
    (htype : getProp v "type" = .ok t)
    (hunrec : ∀ s, t = some (.str s) → s ∉ recognizedTags) :
    handleMessage clients st (.ok v)
      = ⟨st, broadcast clients (.ok v), false⟩ := by
  have hstr : ∀ tag : String, tag ∈ recognizedTags →
      isTypeTag t tag = false := by
    intro tag htag
    cases t with
    | none => rfl
    | some w =>
        cases w with
        | str s =>
            have hs := hunrec s rfl
            exact decide_eq_false (fun h => hs (by rw [h]; exact htag))
        | null => rfl
        | bool b => rfl
        | num n => rfl
        | arr xs => rfl
        | obj fs => rfl
  have hparsed : handleParsed st v = .ok st := by
    simp [handleParsed, htype, exceptOk_bind, exceptPure,
          hstr "stroke:add" (by decide), hstr "chat:message" (by decide)]
  simp [handleMessage, hparsed]

/-- C2 witness: the amended behavior at the concrete bogus frame. -/
theorem unrecognized_type_witness :
    handleMessage [clientA] initialServerState (.ok bogusBody)
      = ⟨initialServerState, [(clientA, .ok bogusBody)], false⟩ :=
  unrecognized_type_no_mutation_still_rebroadcast [clientA]
    initialServerState bogusBody (some (.str "bogus")) rfl
    (fun s hs => by cases hs; decide)

/-- C3: processing any sequence of recognized protocol messages from the
initial relay state leaves BoardState holding exactly the strokes of the
stroke:add messages, in receipt order, so its length is the number of
stroke:add messages processed. -/
theorem boardstate_accumulates_adds (clients : List Client)
    (msgs : List Message) :
    (processAll clients initialServerState (msgs.map Message.frame)).strokes
        = (strokeAdds msgs).map (fun s => some s.toJson)
    ∧ (processAll clients initialServerState
          (msgs.map Message.frame)).strokes.length
        = (strokeAdds msgs).length := by
  constructor
  · rw [processAll_frames, foldl_stepState_strokes]
    simp [initialServerState]
  · rw [processAll_frames, foldl_stepState_strokes]
    simp [initialServerState]

/-- C4: a new connection is sent exactly two synthesized messages, first a
board:sync carrying exactly the current BoardState with users empty, then
a chat:sync carrying exactly the current ChatHistory; after any run of
recognized messages from the initial state these snapshots are exactly the
accumulated stroke:add and chat:message payloads. -/
theorem connect_sends_full_snapshots (clients : List Client)
    (st : ServerState) (msgs : List Message) :
    (onConnection st).length = 2
    ∧ onConnection st = [.boardSync st.strokes [], .chatSync st.chatHistory]
    ∧ onConnection (processAll clients initialServerState
          (msgs.map Message.frame))
        = [.boardSync ((strokeAdds msgs).map (fun s => some s.toJson)) [],
           .chatSync ((chatAppends msgs).map (fun p => some p.toJson))] := by
  refine ⟨rfl, rfl, ?_⟩
  rw [processAll_frames]
  simp [onConnection, foldl_stepState_strokes, foldl_stepState_chat,
        initialServerState]

/-- C5: the claimed idempotence fails on the code: `addStroke` appends
unconditionally, so applying the same stroke:add twice yields two strokes
with the same id instead of leaving the store unchanged. -/
theorem addStroke_not_idempotent :
    (addStroke (addStroke initialWhiteboardState strokeA) strokeA).strokes
        = [strokeA, strokeA]
    ∧ addStroke (addStroke initialWhiteboardState strokeA) strokeA
        ≠ addStroke initialWhiteboardState strokeA
    ∧ ((addStroke (addStroke initialWhiteboardState strokeA)
          strokeA).strokes.filter (fun s => s.id = "a")).length = 2 := by
  refine ⟨rfl, ?_, rfl⟩
  decide

/-- C6: every send performed by the handler for a recognized protocol
message forwards the received frame itself; every open session — the
originating one included — receives it exactly once, and sessions whose
transport is not open receive nothing. -/
theorem rebroadcast_verbatim_exactly_once (clients : List Client)
    (st : ServerState) (m : Message) (sender : Client)
    (hnd : clients.Nodup) (hmem : sender ∈ clients)
    (hopen : sender.readyState = OPEN) :
    (∀ p ∈ (handleMessage clients st m.frame).sends, p.2 = m.frame)
    ∧ (((handleMessage clients st m.frame).sends.filter
          (fun p => p.1 = sender)).length = 1)
    ∧ (∀ c ∈ clients, c.readyState = OPEN →
        ((handleMessage clients st m.frame).sends.filter
            (fun p => p.1 = c)).length = 1)
    ∧ (∀ c, c.readyState ≠ OPEN →
        ((handleMessage clients st m.frame).sends.filter
            (fun p => p.1 = c)).length = 0) := by
  rw [handleMessage_frame]
  have hkey : ∀ c : Client, c ∈ clients → c.readyState = OPEN →
      ((broadcast clients m.frame).filter (fun p => p.1 = c)).length = 1 := by
    intro c hcmem hcopen
    rw [broadcast, filter_map_pair, List.length_map]
    exact filter_eq_singleton _ c (hnd.filter _)
      (List.mem_filter.mpr ⟨hcmem, by simp [hcopen]⟩)
  refine ⟨?_, hkey sender hmem hopen, hkey, ?_⟩
  · intro p hp
    simp [broadcast] at hp
    obtain ⟨c, hc, rfl⟩ := hp
    rfl
  · intro c hcne
    rw [broadcast, filter_map_pair, List.length_map]
    apply filter_eq_none
    intro hcmem
    exact hcne (by simpa using (List.mem_filter.mp hcmem).2)

/-- C6 witness: a client that sends a chat:message over an open connection
gets exactly one copy of it back. -/
theorem rebroadcast_verbatim_witness :
    ((handleMessage [clientA] initialServerState
        (Message.chatMessage ⟨"u1", "A", "hi"⟩).frame).sends.filter
      (fun p => p.1 = clientA)).length = 1 :=
  (rebroadcast_verbatim_exactly_once [clientA] initialServerState
      (Message.chatMessage ⟨"u1", "A", "hi"⟩) clientA
      (by decide) (by decide) rfl).2.1

/-- C7: a frame whose body is not valid JSON is silently dropped: the
handler returns the state unchanged, performs no sends and does not crash
the process, and deleting such a frame from any inbound sequence does not
change the relay state the sequence produces. -/
theorem malformed_frame_silently_dropped (clients : List Client)
    (st : ServerState) (raw : String) (pre post : List Data) :
    handleMessage clients st (.malformed raw) = ⟨st, [], false⟩
    ∧ processAll clients st (pre ++ .malformed raw :: post)
        = processAll clients st (pre ++ post) := by
  refine ⟨rfl, ?_⟩
  simp [processAll, List.foldl_append, List.foldl_cons, handleMessage]

/-- C8: applying a board:sync snapshot replaces the local stroke
collection wholesale: afterwards the store equals exactly the snapshot,
and every stroke in it comes from the snapshot. -/
theorem board_sync_replaces_wholesale (state : WhiteboardState)
    (snapshot : List Stroke) :
    (setAllStrokes state snapshot).strokes = snapshot
    ∧ ∀ s ∈ (setAllStrokes state snapshot).strokes, s ∈ snapshot :=
  ⟨rfl, fun _ hs => hs⟩

/-- C9: every handler activation extends the strokes sequence on the
right — the prior BoardState is an initial segment of the new one — so the
stroke count never decreases, over a single message or a whole run. -/
theorem relay_strokes_monotone (clients : List Client) (st : ServerState)
    (data : Data) (frames : List Data) :
    (∃ tail, (handleMessage clients st data).state.strokes
        = st.strokes ++ tail)
    ∧ st.strokes.length ≤ (handleMessage clients st data).state.strokes.length
    ∧ ∃ tail, (processAll clients st frames).strokes
        = st.strokes ++ tail := by
  have hsingle : ∀ s : ServerState, ∀ d : Data,
      ∃ tail, (handleMessage clients s d).state.strokes
        = s.strokes ++ tail := by
    intro s d
    cases d with
    | malformed raw => exact ⟨[], by simp [handleMessage]⟩
    | ok v =>
        cases hh : handleParsed s v with
        | error e => exact ⟨[], by simp [handleMessage, hh]⟩
        | ok s2 =>
            obtain ⟨tail, ht⟩ := handleParsed_strokes_extend s v s2 hh
            exact ⟨tail, by simp [handleMessage, hh, ht]⟩
  refine ⟨hsingle st data, ?_, ?_⟩
  · obtain ⟨tail, ht⟩ := hsingle st data
    simp [ht]
  · induction frames generalizing st with
    | nil => exact ⟨[], by simp [processAll]⟩
    | cons d rest ih =>
        obtain ⟨t1, h1⟩ := hsingle st d
        obtain ⟨t2, h2⟩ := ih ((handleMessage clients st d).state)
        refine ⟨t1 ++ t2, ?_⟩
        simp [processAll] at h2 ⊢
        rw [h2, h1, List.append_assoc]

/-- C10: the hook's send transmits exactly when the socket handle exists
and its readyState is OPEN; with no socket, or a socket in any other
state, nothing is put on the wire, nothing is queued, and no error is
raised. -/
theorem send_only_when_socket_open (ws : Option Socket) (msg : Message) :
    (ws = none → send ws msg = [])
    ∧ (∀ s, ws = some s → s.readyState ≠ OPEN → send ws msg = [])
    ∧ (∀ s, ws = some s → s.readyState = OPEN →
        send ws msg = [.ok msg.toJson]) := by
  refine ⟨?_, ?_, ?_⟩
  · intro h; subst h; rfl
  · intro s h hne; subst h; simp [send, hne]
  · intro s h hopen; subst h; simp [send, hopen]

/-- C10 witness: with an open socket, a concrete chat message goes out as
its single serialized frame. -/
theorem send_only_when_socket_open_witness :
    send (some ⟨OPEN⟩) (Message.chatMessage ⟨"u1", "A", "hi"⟩)
      = [.ok (Message.chatMessage ⟨"u1", "A", "hi"⟩).toJson] :=
  (send_only_when_socket_open (some ⟨OPEN⟩)
      (Message.chatMessage ⟨"u1", "A", "hi"⟩)).2.2 ⟨OPEN⟩ rfl rfl

end RealtimeWhiteboard
